import Mathlib

/-!
Verification development for the testpilot JUnit-ingestion test-management system.

The TypeScript sources are shallowly embedded:
* JavaScript numbers are modelled as `JSNum := Option ℚ`, where `none` stands for `NaN`;
  arithmetic propagates `NaN` as in JavaScript.  (Binary-float rounding and the
  infinities are outside the fragment the embedded code exercises: every division
  in the embedded code is guarded by a positivity test on the divisor.)
* Rational arithmetic is implemented by kernel-computable operations (`qAdd`, `qMul`, …)
  built on `mkRat`, and related to Mathlib's field operations by bridge lemmas.
* The DOM tree handed to the parser is the mutual inductive `XmlNode`/`XmlForest`;
  `querySelector`/`querySelectorAll`/`getAttribute`/`textContent` are modelled on it.
* The in-memory store (`server/storage.ts`) is a record of association lists with
  auto-increment counters; JavaScript `Map` iteration order is insertion order,
  which the association lists preserve.
-/

/-! ## Kernel-computable rational arithmetic -/

/-- Addition on `ℚ` via the computable smart constructor `mkRat`. -/
def qAdd (a b : ℚ) : ℚ := mkRat (a.num * b.den + b.num * a.den) (a.den * b.den)

/-- Subtraction on `ℚ` via `mkRat`. -/
def qSub (a b : ℚ) : ℚ := mkRat (a.num * b.den - b.num * a.den) (a.den * b.den)

/-- Multiplication on `ℚ` via `mkRat`. -/
def qMul (a b : ℚ) : ℚ := mkRat (a.num * b.num) (a.den * b.den)

/-- Division on `ℚ` via `Rat.divInt`. -/
def qDiv (a b : ℚ) : ℚ := Rat.divInt (a.num * b.den) (a.den * b.num)

/-- JavaScript `Math.round`: floor of the argument plus one half. -/
def qRound (a : ℚ) : ℤ := (qAdd a (mkRat 1 2)).floor

/-- Strict order test on `ℚ` as a boolean, via the computable `Rat.blt`. -/
def qLtB (a b : ℚ) : Bool := Rat.blt a b

/-! ## JavaScript number and string primitives -/

/-- A JavaScript number in the fragment the embedded code exercises:
`none` is `NaN`, `some q` is the finite value `q`. -/
def JSNum := Option ℚ
deriving DecidableEq

/-- NaN-propagating addition. -/
def jsAdd : JSNum → JSNum → JSNum
  | some a, some b => some (qAdd a b)
  | _, _ => none

/-- NaN-propagating subtraction. -/
def jsSub : JSNum → JSNum → JSNum
  | some a, some b => some (qSub a b)
  | _, _ => none

/-- NaN-propagating multiplication. -/
def jsMul : JSNum → JSNum → JSNum
  | some a, some b => some (qMul a b)
  | _, _ => none

/-- NaN-propagating division.  The embedded code only divides by values it has
checked to be positive, so the `x / 0 = Infinity` corner of JavaScript never arises. -/
def jsDiv : JSNum → JSNum → JSNum
  | some a, some b => some (qDiv a b)
  | _, _ => none

/-- JavaScript `Math.round`; `Math.round NaN = NaN`. -/
def jsRound : JSNum → JSNum
  | some a => some ((qRound a : ℤ) : ℚ)
  | none => none

/-- JavaScript `x > q` comparison: any comparison with `NaN` is `false`. -/
def jsGtB : JSNum → ℚ → Bool
  | some a, q => qLtB q a
  | none, _ => false

/-- JavaScript `s1 || s2` on a nullable string: `null` and `""` are falsy. -/
def jsOr (v : Option String) (d : String) : String :=
  match v with
  | some s => if s = "" then d else s
  | none => d

/-- JavaScript `s || null` / `s || undefined` on a nullable string:
the empty string collapses to `none`. -/
def jsOrNullStr (v : Option String) : Option String :=
  match v with
  | some s => if s = "" then none else some s
  | none => none

/-- JavaScript `n || null` on a nullable integer: `0` is falsy and collapses to `none`. -/
def jsOrNullInt (v : Option Int) : Option Int :=
  match v with
  | some n => if n = 0 then none else some n
  | none => none

/-- JavaScript `n || null` on a nullable natural number (used for foreign-key ids). -/
def jsOrNullNat (v : Option Nat) : Option Nat :=
  match v with
  | some n => if n = 0 then none else some n
  | none => none

/-- Whitespace recognised by `parseInt`/`parseFloat` and the XML tokenizer. -/
def isWsChar (c : Char) : Bool :=
  c = ' ' || c = '\t' || c = '\n' || c = '\r'

/-- Drop leading whitespace from a character list. -/
def skipWsL (cs : List Char) : List Char := cs.dropWhile isWsChar

/-- Split a leading run of decimal digits from a character list. -/
def takeDigits : List Char → List Char × List Char
  | [] => ([], [])
  | c :: t =>
    if c.isDigit then
      let p := takeDigits t
      (c :: p.1, p.2)
    else ([], c :: t)

/-- Numeric value of a digit run. -/
def digitsVal (ds : List Char) : Nat :=
  ds.foldl (fun a c => a * 10 + (c.toNat - 48)) 0

/-- JavaScript `parseInt(s)` (radix 10): skip whitespace, optional sign, then the
longest digit prefix; `NaN` when no digit is found.  Trailing junk is ignored. -/
def parseIntJS (s : String) : JSNum :=
  let cs := skipWsL s.toList
  match cs with
  | '-' :: t =>
    let p := takeDigits t
    if p.1.isEmpty then none else some (-(digitsVal p.1 : ℚ))
  | '+' :: t =>
    let p := takeDigits t
    if p.1.isEmpty then none else some (digitsVal p.1)
  | _ =>
    let p := takeDigits cs
    if p.1.isEmpty then none else some (digitsVal p.1)

/-- Unsigned decimal literal for `parseFloat`: digits, optionally a point and more
digits; at least one digit in total.  Exponent notation and the `Infinity`
literal are outside the fragment the embedded code exercises. -/
def parseFloatCore (cs : List Char) : JSNum :=
  let ip := takeDigits cs
  match ip.2 with
  | '.' :: t =>
    let fp := takeDigits t
    if ip.1.isEmpty && fp.1.isEmpty then none
    else some (qAdd (digitsVal ip.1 : ℚ) (mkRat (digitsVal fp.1) (10 ^ fp.1.length)))
  | _ => if ip.1.isEmpty then none else some (digitsVal ip.1)

/-- JavaScript `parseFloat(s)` on decimal literals. -/
def parseFloatJS (s : String) : JSNum :=
  let cs := skipWsL s.toList
  match cs with
  | '-' :: t => (parseFloatCore t).map (fun q => -q)
  | '+' :: t => parseFloatCore t
  | _ => parseFloatCore cs

/-- Does `needle` occur at the start of `hay`? -/
def startsWithL : List Char → List Char → Bool
  | [], _ => true
  | _ :: _, [] => false
  | n :: ns, h :: hs => n = h && startsWithL ns hs

/-- JavaScript `hay.includes(needle)`: substring containment. -/
def strContainsL : List Char → List Char → Bool
  | [], needle => needle.isEmpty
  | c :: t, needle => startsWithL needle (c :: t) || strContainsL t needle

/-- JavaScript `hay.includes(needle)` on strings. -/
def strContains (hay needle : String) : Bool :=
  strContainsL hay.toList needle.toList

/-! ## The DOM tree

The browser `DOMParser` hands `parseJUnitXML` a document tree; elements carry a
tag, attributes and ordered children.  `XmlForest` is an ordered sequence of
nodes (the mutual inductive keeps all recursion structural, hence
kernel-computable). -/

/-- One attribute of an element. -/
structure XmlAttr where
  name : String
  value : String

mutual
/-- A DOM node: an element or a text node. -/
inductive XmlNode where
  | text (content : String) : XmlNode
  | element (tag : String) (attrs : List XmlAttr) (children : XmlForest) : XmlNode
/-- An ordered sequence of DOM nodes. -/
inductive XmlForest where
  | nil : XmlForest
  | cons (head : XmlNode) (tail : XmlForest) : XmlForest
end

/-- Concatenation of forests. -/
def XmlForest.append : XmlForest → XmlForest → XmlForest
  | .nil, ys => ys
  | .cons x xs, ys => .cons x (XmlForest.append xs ys)

/-- Build a forest from a list of nodes. -/
def XmlForest.ofList : List XmlNode → XmlForest
  | [] => .nil
  | n :: ns => .cons n (XmlForest.ofList ns)

mutual
/-- A node followed by all of its descendants, in document (pre-)order. -/
def nodeSelfDesc : XmlNode → List XmlNode
  | .text s => [.text s]
  | .element t a cs => .element t a cs :: forestSelfDesc cs
/-- All nodes of a forest and their descendants, in document (pre-)order. -/
def forestSelfDesc : XmlForest → List XmlNode
  | .nil => []
  | .cons n ns => nodeSelfDesc n ++ forestSelfDesc ns
end

/-- Does the node match a tag-name selector? -/
def isTagB (tag : String) : XmlNode → Bool
  | .element t _ _ => t == tag
  | .text _ => false

/-- The children of a node (empty for text nodes). -/
def childForest : XmlNode → XmlForest
  | .element _ _ cs => cs
  | .text _ => .nil

/-- All strict descendants of a node, in document order. -/
def descendantNodes (n : XmlNode) : List XmlNode := forestSelfDesc (childForest n)

/-- `element.querySelector(tag)`: the first descendant element with the given tag. -/
def querySelectorTag (n : XmlNode) (tag : String) : Option XmlNode :=
  (descendantNodes n).find? (isTagB tag)

/-- `element.querySelectorAll(tag)`: all descendant elements with the given tag,
in document order. -/
def querySelectorAllTag (n : XmlNode) (tag : String) : List XmlNode :=
  (descendantNodes n).filter (isTagB tag)

/-- `document.querySelector(tag)` on the whole document (root elements included). -/
def docQuerySelector (doc : XmlForest) (tag : String) : Option XmlNode :=
  (forestSelfDesc doc).find? (isTagB tag)

/-- `document.querySelectorAll(tag)` on the whole document. -/
def docQuerySelectorAll (doc : XmlForest) (tag : String) : List XmlNode :=
  (forestSelfDesc doc).filter (isTagB tag)

/-- `element.getAttribute(name)`: `none` models the `null` returned for an
absent attribute (and for attribute access on a text node). -/
def getAttribute (n : XmlNode) (name : String) : Option String :=
  match n with
  | .element _ attrs _ => (attrs.find? (fun a => a.name == name)).map (fun a => a.value)
  | .text _ => none

mutual
/-- `node.textContent`: the concatenation of all text in the subtree. -/
def nodeTextContent : XmlNode → String
  | .text s => s
  | .element _ _ cs => forestTextContent cs
/-- Concatenated text content of a forest. -/
def forestTextContent : XmlForest → String
  | .nil => ""
  | .cons n ns => nodeTextContent n ++ forestTextContent ns
end

/-! ## client/src/lib/xml-parser.ts -/

/-- The four statuses `parseTestCase` can assign (`ParsedTestCase['status']`). -/
inductive CaseStatus where
  | passed
  | failed
  | skipped
  | error
deriving DecidableEq

/-- `ParsedTestCase` of xml-parser.ts. -/
structure ParsedTestCase where
  name : String
  className : String
  duration : JSNum
  status : CaseStatus
  errorMessage : Option String
  stackTrace : Option String
  systemOut : Option String
  systemErr : Option String
  attachments : Option (List String)
deriving DecidableEq

/-- `ParsedTestSuite` of xml-parser.ts: the count fields hold whatever
`parseInt` produced from the declared attributes. -/
structure ParsedTestSuite where
  name : String
  tests : JSNum
  failures : JSNum
  errors : JSNum
  skipped : JSNum
  time : JSNum
  timestamp : Option String
  testCases : List ParsedTestCase
deriving DecidableEq

/-- `ParsedJUnitXML` of xml-parser.ts. -/
structure ParsedJUnitXML where
  testSuites : List ParsedTestSuite
  totalTests : JSNum
  totalFailures : JSNum
  totalErrors : JSNum
  totalSkipped : JSNum
  totalTime : JSNum
deriving DecidableEq

/-- `parseTestCase` of xml-parser.ts.  The three outcome checks are sequential
`if` statements without `else`, so a later match overwrites the status (and
message) set by an earlier one; the skipped branch does not touch `stackTrace`. -/
def parseTestCase (caseElement : XmlNode) : ParsedTestCase :=
  let name := jsOr (getAttribute caseElement "name") "Unknown Test"
  let className := jsOr (getAttribute caseElement "classname") "Unknown Class"
  let time := parseFloatJS (jsOr (getAttribute caseElement "time") "0")
  let duration := jsRound (jsMul time (some 1000))
  let afterFailure : CaseStatus × Option String × Option String :=
    match querySelectorTag caseElement "failure" with
    | some fe =>
      (CaseStatus.failed, some (jsOr (getAttribute fe "message") "Test failed"),
        jsOrNullStr (some (nodeTextContent fe)))
    | none => (CaseStatus.passed, none, none)
  let afterError : CaseStatus × Option String × Option String :=
    match querySelectorTag caseElement "error" with
    | some ee =>
      (CaseStatus.error, some (jsOr (getAttribute ee "message") "Test error"),
        jsOrNullStr (some (nodeTextContent ee)))
    | none => afterFailure
  let afterSkipped : CaseStatus × Option String :=
    match querySelectorTag caseElement "skipped" with
    | some se =>
      (CaseStatus.skipped, some (jsOr (getAttribute se "message") "Test skipped"))
    | none => (afterError.1, afterError.2.1)
  let systemOut := (querySelectorTag caseElement "system-out").bind
    (fun el => jsOrNullStr (some (nodeTextContent el)))
  let systemErr := (querySelectorTag caseElement "system-err").bind
    (fun el => jsOrNullStr (some (nodeTextContent el)))
  let attachments :=
    match querySelectorTag caseElement "properties" with
    | some pe =>
      (querySelectorAllTag pe "property").foldl (fun acc prop =>
        match getAttribute prop "name", getAttribute prop "value" with
        | some pn, some pv =>
          if pn ≠ "" && pv ≠ "" &&
              (strContains pn "attachment" || strContains pn "screenshot" ||
                strContains pn "file") then
            acc ++ [pv]
          else acc
        | _, _ => acc) []
    | none => []
  { name := name
    className := className
    duration := duration
    status := afterSkipped.1
    errorMessage := afterSkipped.2
    stackTrace := afterError.2.2
    systemOut := systemOut
    systemErr := systemErr
    attachments := if attachments.length > 0 then some attachments else none }

/-- `parseTestSuite` of xml-parser.ts: the count fields are read from the
suite element's declared attributes with `parseInt`/`parseFloat`. -/
def parseTestSuite (suiteElement : XmlNode) : ParsedTestSuite :=
  { name := jsOr (getAttribute suiteElement "name") "Unknown Suite"
    tests := parseIntJS (jsOr (getAttribute suiteElement "tests") "0")
    failures := parseIntJS (jsOr (getAttribute suiteElement "failures") "0")
    errors := parseIntJS (jsOr (getAttribute suiteElement "errors") "0")
    skipped := parseIntJS (jsOr (getAttribute suiteElement "skipped") "0")
    time := parseFloatJS (jsOr (getAttribute suiteElement "time") "0")
    timestamp := jsOrNullStr (getAttribute suiteElement "timestamp")
    testCases := (querySelectorAllTag suiteElement "testcase").map parseTestCase }

/-- The suite elements `parseJUnitXML` iterates over: the descendant
`testsuite` elements of the first `testsuites` element when there is one,
otherwise all `testsuite` elements of the document. -/
def selectSuiteElements (doc : XmlForest) : List XmlNode :=
  match docQuerySelector doc "testsuites" with
  | some w => querySelectorAllTag w "testsuite"
  | none => docQuerySelectorAll doc "testsuite"

/-- `parseJUnitXML` of xml-parser.ts, applied to an already-parsed document
tree: the totals are accumulated from each suite's (declared) count fields. -/
def parseJUnitXMLDoc (doc : XmlForest) : ParsedJUnitXML :=
  let suites := (selectSuiteElements doc).map parseTestSuite
  { testSuites := suites
    totalTests := suites.foldl (fun a s => jsAdd a s.tests) (some 0)
    totalFailures := suites.foldl (fun a s => jsAdd a s.failures) (some 0)
    totalErrors := suites.foldl (fun a s => jsAdd a s.errors) (some 0)
    totalSkipped := suites.foldl (fun a s => jsAdd a s.skipped) (some 0)
    totalTime := suites.foldl (fun a s => jsAdd a s.time) (some 0) }

/-- The record returned by `getTestSummary` of xml-parser.ts. -/
structure TestSummary where
  totalTests : JSNum
  passedTests : JSNum
  failedTests : JSNum
  errorTests : JSNum
  skippedTests : JSNum
  passRate : JSNum
  totalDuration : JSNum
  testSuiteCount : Nat
deriving DecidableEq

/-- `getTestSummary` of xml-parser.ts: derives the passed count, guards the
pass rate by `totalTests > 0`, and rounds with `Math.round(passRate * 100) / 100`. -/
def getTestSummary (parsedXML : ParsedJUnitXML) : TestSummary :=
  let passedTests := jsSub (jsSub (jsSub parsedXML.totalTests parsedXML.totalFailures)
    parsedXML.totalErrors) parsedXML.totalSkipped
  let passRate :=
    if jsGtB parsedXML.totalTests 0 then jsMul (jsDiv passedTests parsedXML.totalTests) (some 100)
    else some 0
  { totalTests := parsedXML.totalTests
    passedTests := passedTests
    failedTests := parsedXML.totalFailures
    errorTests := parsedXML.totalErrors
    skippedTests := parsedXML.totalSkipped
    passRate := jsDiv (jsRound (jsMul passRate (some 100))) (some 100)
    totalDuration := jsRound (jsMul parsedXML.totalTime (some 1000))
    testSuiteCount := parsedXML.testSuites.length }

/-! ## Spec-modelled structural parse of the raw XML text

The repository calls the browser `DOMParser` for the string-to-tree step; that
parser is not part of the repository's sources.  Following the specification's
contract — "input is not well-formed XML → MalformedDocument", otherwise a
document tree — the step is modelled by a total recursive-descent parser over
the character list, with fuel for termination.  `none` models the
`parsererror` document that `DOMParser` produces for malformed input. -/

/-- Is the character allowed in an XML name? -/
def isNameChar (c : Char) : Bool :=
  c.isAlphanum || c = '-' || c = '_' || c = ':' || c = '.'

/-- Split a leading XML name from a character list. -/
def takeName : List Char → List Char × List Char
  | [] => ([], [])
  | c :: t =>
    if isNameChar c then
      let p := takeName t
      (c :: p.1, p.2)
    else ([], c :: t)

/-- Modelled from the spec: attribute-list parsing for the missing `DOMParser`
step.  Reads `name="value"` pairs up to the `>` or `/>` that closes the open
tag; any other shape (including end of input inside the tag) is malformed. -/
def parseAttrList : Nat → List Char → Option (List XmlAttr × List Char)
  | 0, _ => none
  | fuel + 1, cs =>
    match skipWsL cs with
    | [] => none
    | '>' :: r => some ([], '>' :: r)
    | '/' :: r => some ([], '/' :: r)
    | c :: r =>
      if isNameChar c then
        let p := takeName (c :: r)
        match skipWsL p.2 with
        | '=' :: r2 =>
          match skipWsL r2 with
          | '"' :: r3 =>
            let v := r3.span (fun d => d ≠ '"')
            match v.2 with
            | '"' :: r4 =>
              match parseAttrList fuel r4 with
              | some (attrs, r5) => some (⟨String.mk p.1, String.mk v.1⟩ :: attrs, r5)
              | none => none
            | _ => none
          | _ => none
        | _ => none
      else none

/-- Modelled from the spec: node-sequence parsing for the missing `DOMParser`
step.  Parses sibling nodes until end of input or a closing tag; returns the
forest and the unconsumed rest.  Unbalanced or truncated markup yields `none`
(the `MalformedDocument` outcome). -/
def parseNodeList : Nat → List Char → Option (XmlForest × List Char)
  | 0, _ => none
  | fuel + 1, cs =>
    match cs with
    | [] => some (.nil, [])
    | '<' :: '/' :: r => some (.nil, '<' :: '/' :: r)
    | '<' :: r =>
      let nm := takeName r
      if nm.1.isEmpty then none
      else
        match parseAttrList (fuel + 1) nm.2 with
        | none => none
        | some (attrs, r2) =>
          match r2 with
          | '/' :: '>' :: r3 =>
            (match parseNodeList fuel r3 with
             | some (ns, r4) =>
               some (.cons (.element (String.mk nm.1) attrs .nil) ns, r4)
             | none => none)
          | '>' :: r3 =>
            (match parseNodeList fuel r3 with
             | some (children, r4) =>
               match r4 with
               | '<' :: '/' :: r5 =>
                 let nm2 := takeName r5
                 (match skipWsL nm2.2 with
                  | '>' :: r6 =>
                    if nm2.1 = nm.1 then
                      match parseNodeList fuel r6 with
                      | some (ns, r7) =>
                        some (.cons (.element (String.mk nm.1) attrs children) ns, r7)
                      | none => none
                    else none
                  | _ => none)
               | _ => none
             | none => none)
          | _ => none
    | c :: r =>
      let txt := (c :: r).span (fun d => d ≠ '<')
      match parseNodeList fuel txt.2 with
      | some (ns, r2) => some (.cons (.text (String.mk txt.1)) ns, r2)
      | none => none

/-- Modelled from the spec: the missing `DOMParser.parseFromString` step.
Returns the document forest, or `none` (`MalformedDocument`) when the input is
not well-formed — truncated tags, mismatched closing tags, stray markup. -/
def parseXmlDocument (s : String) : Option XmlForest :=
  let cs := s.toList
  match parseNodeList (cs.length + 1) cs with
  | some (ns, rest) => if rest.isEmpty then some ns else none
  | none => none

/-- The document-level failure of `parseReport`. -/
inductive ParseFailure where
  | malformedDocument
deriving DecidableEq

/-- `parseJUnitXML` of xml-parser.ts on the raw text: the `parsererror` check
throws (`Except.error .malformedDocument`); otherwise the document tree is
processed by `parseJUnitXMLDoc`. -/
def parseJUnitXMLStr (s : String) : Except ParseFailure ParsedJUnitXML :=
  match parseXmlDocument s with
  | none => Except.error ParseFailure.malformedDocument
  | some doc => Except.ok (parseJUnitXMLDoc doc)

/-- `validateJUnitXML` of xml-parser.ts: false on a parse error, otherwise
true iff the document holds a `testsuites` or `testsuite` element. -/
def validateJUnitXML (s : String) : Bool :=
  match parseXmlDocument s with
  | none => false
  | some doc =>
    (docQuerySelector doc "testsuites").isSome || (docQuerySelector doc "testsuite").isSome

/-- One server call issued by the upload mutation of
client/src/pages/automated/junit-upload.tsx. -/
inductive ApiPost where
  | createRun (name : String) (totalTests passedTests failedTests skippedTests : JSNum)
      (xmlContent : String)
  | processCases (batch : List ParsedTestCase)

/-- Split the flattened case list into batches of 100, as the upload loop does. -/
def chunks100 : List ParsedTestCase → List (List ParsedTestCase)
  | [] => []
  | c :: rest => ((c :: rest).take 100) :: chunks100 ((c :: rest).drop 100)
termination_by l => l.length
decreasing_by simp; omega

/-- `uploadMutation.mutationFn` of junit-upload.tsx, as the sequence of server
calls it issues: validation failure throws before any call is made; otherwise
one run-creating POST is followed by one batch POST per 100 cases. -/
def uploadMutationFn (xmlContent testRunName : String) : Except String (List ApiPost) :=
  if validateJUnitXML xmlContent = false then Except.error "Invalid JUnit XML format"
  else
    match parseXmlDocument xmlContent with
    | none => Except.error "Invalid JUnit XML format"
    | some doc =>
      let parsedXML := parseJUnitXMLDoc doc
      let summary := getTestSummary parsedXML
      let testCases := parsedXML.testSuites.flatMap (fun s => s.testCases)
      Except.ok (ApiPost.createRun testRunName summary.totalTests summary.passedTests
          summary.failedTests summary.skippedTests xmlContent ::
        (chunks100 testCases).map ApiPost.processCases)

/-- How many run-creating POSTs an upload issued (zero when it threw). -/
def createRunPosts : Except String (List ApiPost) → Nat
  | Except.error _ => 0
  | Except.ok posts =>
    (posts.filter (fun p => match p with
      | ApiPost.createRun _ _ _ _ _ _ => true
      | ApiPost.processCases _ => false)).length

/-! ## shared/schema.ts and server/storage.ts

Statuses are stored as strings, exactly as in the schema; timestamps are
modelled by a logical clock on the store. -/

/-- A `test_runs` row (`TestRun` of shared/schema.ts). -/
structure TestRunRec where
  id : Nat
  name : String
  type : String
  status : String
  totalTests : Nat
  passedTests : Nat
  failedTests : Nat
  skippedTests : Nat
  duration : Option Int
  xmlContent : Option String
  createdAt : Nat
deriving DecidableEq

/-- A `test_cases` row (`TestCase` of shared/schema.ts). -/
structure TestCaseRec where
  id : Nat
  testRunId : Option Nat
  name : String
  className : Option String
  status : String
  duration : Option Int
  errorMessage : Option String
  stackTrace : Option String
  attachments : Option (List String)
deriving DecidableEq

/-- A `failure_analysis` row (`FailureAnalysis` of shared/schema.ts); the
schema documents its status column as `'new' | 'investigating' | 'resolved' |
'ignored'` with default `'new'`. -/
structure FailureAnalysisRec where
  id : Nat
  testCaseId : Option Nat
  status : String
  assignedTo : Option String
  resolution : Option String
  createdAt : Nat
  updatedAt : Nat
deriving DecidableEq

/-- `InsertTestRun`: the insert shape accepted by `createTestRun` (id and
createdAt omitted; counters optional with `|| 0` applied in storage). -/
structure InsertTestRun where
  name : String
  type : String
  status : String
  totalTests : Option Nat := none
  passedTests : Option Nat := none
  failedTests : Option Nat := none
  skippedTests : Option Nat := none
  duration : Option Int := none
  xmlContent : Option String := none

/-- `InsertTestCase`: the insert shape accepted by `createTestCase`. -/
structure InsertTestCase where
  testRunId : Option Nat := none
  name : String
  className : Option String := none
  status : String
  duration : Option Int := none
  errorMessage : Option String := none
  stackTrace : Option String := none
  attachments : Option (List String) := none

/-- `InsertFailureAnalysis`: the insert shape accepted by `createFailureAnalysis`. -/
structure InsertFailureAnalysis where
  testCaseId : Option Nat := none
  status : String
  assignedTo : Option String := none
  resolution : Option String := none

/-- `Partial<TestRun>`: each present field overrides the stored row in
`updateTestRun`'s spread merge. -/
structure TestRunUpdates where
  id : Option Nat := none
  name : Option String := none
  type : Option String := none
  status : Option String := none
  totalTests : Option Nat := none
  passedTests : Option Nat := none
  failedTests : Option Nat := none
  skippedTests : Option Nat := none
  duration : Option (Option Int) := none
  xmlContent : Option (Option String) := none
  createdAt : Option Nat := none

/-- Lookup in a JavaScript `Map` modelled as an association list. -/
def assocGet {α : Type} (l : List (Nat × α)) (k : Nat) : Option α :=
  (l.find? (fun p => p.1 == k)).map (fun p => p.2)

/-- `Map.set`: replace the entry in place when the key exists (JavaScript `Map`
keeps insertion order on update), append otherwise. -/
def assocSet {α : Type} (l : List (Nat × α)) (k : Nat) (v : α) : List (Nat × α) :=
  match l with
  | [] => [(k, v)]
  | (k1, v1) :: t => if k1 == k then (k, v) :: t else (k1, v1) :: assocSet t k v

/-- The `MemStorage` state: the three maps the ingestion path touches, their
auto-increment counters (all starting at 1), and a logical clock standing in
for `new Date()`. -/
structure Storage where
  testRuns : List (Nat × TestRunRec)
  testCases : List (Nat × TestCaseRec)
  failureAnalyses : List (Nat × FailureAnalysisRec)
  currentTestRunId : Nat
  currentTestCaseId : Nat
  currentFailureAnalysisId : Nat
  clock : Nat
deriving DecidableEq

/-- A fresh `MemStorage`. -/
def emptyStorage : Storage :=
  { testRuns := [], testCases := [], failureAnalyses := []
    currentTestRunId := 1, currentTestCaseId := 1, currentFailureAnalysisId := 1
    clock := 0 }

/-- `MemStorage.createTestRun`: assigns the next id, applies `|| 0` to the
counters and `|| null` to duration and xmlContent, stamps `createdAt`. -/
def createTestRun (st : Storage) (ins : InsertTestRun) : TestRunRec × Storage :=
  let id := st.currentTestRunId
  let r : TestRunRec :=
    { id := id, name := ins.name, type := ins.type, status := ins.status
      totalTests := ins.totalTests.getD 0, passedTests := ins.passedTests.getD 0
      failedTests := ins.failedTests.getD 0, skippedTests := ins.skippedTests.getD 0
      duration := jsOrNullInt ins.duration, xmlContent := jsOrNullStr ins.xmlContent
      createdAt := st.clock }
  (r, { st with
    testRuns := assocSet st.testRuns id r
    currentTestRunId := id + 1
    clock := st.clock + 1 })

/-- `MemStorage.getTestRun`. -/
def getTestRun (st : Storage) (id : Nat) : Option TestRunRec :=
  assocGet st.testRuns id

/-- `MemStorage.updateTestRun`: spread-merge the updates over the stored row;
`undefined` id gives `undefined` and leaves the store untouched. -/
def applyRunUpdates (r : TestRunRec) (u : TestRunUpdates) : TestRunRec :=
  { id := u.id.getD r.id, name := u.name.getD r.name, type := u.type.getD r.type
    status := u.status.getD r.status, totalTests := u.totalTests.getD r.totalTests
    passedTests := u.passedTests.getD r.passedTests
    failedTests := u.failedTests.getD r.failedTests
    skippedTests := u.skippedTests.getD r.skippedTests
    duration := u.duration.getD r.duration, xmlContent := u.xmlContent.getD r.xmlContent
    createdAt := u.createdAt.getD r.createdAt }

/-- `MemStorage.updateTestRun` of server/storage.ts. -/
def updateTestRun (st : Storage) (id : Nat) (u : TestRunUpdates) :
    Option TestRunRec × Storage :=
  match assocGet st.testRuns id with
  | none => (none, st)
  | some r =>
    let merged := applyRunUpdates r u
    (some merged, { st with testRuns := assocSet st.testRuns id merged })

/-- `MemStorage.createTestCase`: assigns the next id and applies `|| null` to
the nullable columns (arrays are truthy in JavaScript, so attachments pass
through). -/
def createTestCase (st : Storage) (ins : InsertTestCase) : TestCaseRec × Storage :=
  let id := st.currentTestCaseId
  let c : TestCaseRec :=
    { id := id, name := ins.name, className := jsOrNullStr ins.className
      status := ins.status, duration := jsOrNullInt ins.duration
      testRunId := jsOrNullNat ins.testRunId
      errorMessage := jsOrNullStr ins.errorMessage
      stackTrace := jsOrNullStr ins.stackTrace
      attachments := ins.attachments }
  (c, { st with
    testCases := assocSet st.testCases id c
    currentTestCaseId := id + 1 })

/-- `MemStorage.getTestCasesByRunId`: the stored cases whose `testRunId`
strictly equals the given run id, in insertion order. -/
def getTestCasesByRunId (st : Storage) (testRunId : Nat) : List TestCaseRec :=
  (st.testCases.map (fun p => p.2)).filter (fun tc => tc.testRunId == some testRunId)

/-- `MemStorage.createFailureAnalysis`: spreads the insert shape and assigns
the next id and timestamps — an unconditional insert, with no
lookup-by-`testCaseId` beforehand. -/
def createFailureAnalysis (st : Storage) (ins : InsertFailureAnalysis) :
    FailureAnalysisRec × Storage :=
  let id := st.currentFailureAnalysisId
  let fa : FailureAnalysisRec :=
    { id := id, testCaseId := ins.testCaseId, status := ins.status
      assignedTo := ins.assignedTo, resolution := ins.resolution
      createdAt := st.clock, updatedAt := st.clock }
  (fa, { st with
    failureAnalyses := assocSet st.failureAnalyses id fa
    currentFailureAnalysisId := id + 1
    clock := st.clock + 1 })

/-! ## The batch-processing route `POST /api/junit/process/:id` -/

/-- One element of the request body's `testCases` array. -/
structure SubmittedCase where
  name : String
  className : Option String := none
  status : String
  duration : Option Int := none
  errorMessage : Option String := none
  stackTrace : Option String := none
  attachments : Option (List String) := none
deriving DecidableEq

/-- The insert shape the route builds for one submitted case (`|| null` applied
to the optional fields, `testRunId` set to the run being processed). -/
def submittedToInsert (runId : Nat) (tc : SubmittedCase) : InsertTestCase :=
  { testRunId := some runId, name := tc.name, className := jsOrNullStr tc.className
    status := tc.status, duration := jsOrNullInt tc.duration
    errorMessage := jsOrNullStr tc.errorMessage
    stackTrace := jsOrNullStr tc.stackTrace
    attachments := tc.attachments }

/-- The per-case loop of the route: persist the case, then — only when the
submitted status is `"failed"` or `"flaky"` — insert a `FailureAnalysis` row
with status `"new_failures"`. -/
def processCaseLoop (st : Storage) (runId : Nat) : List SubmittedCase → Storage
  | [] => st
  | tc :: rest =>
    let created := createTestCase st (submittedToInsert runId tc)
    let st2 :=
      if tc.status == "failed" || tc.status == "flaky" then
        (createFailureAnalysis created.2
          { testCaseId := some created.1.id, status := "new_failures"
            assignedTo := none, resolution := none }).2
      else created.2
    processCaseLoop st2 runId rest

/-- `POST /api/junit/process/:id`: look up the run (404 → `none`, nothing
mutated), persist every submitted case, recount from the run's persisted cases
(`passed`/`failed`/`skipped` filters only), and update the run — status
`"completed"` exactly when the submitted batch has fewer than 100 cases.
Returns the updated store and the `totalProcessed` of the response. -/
def processJUnitBatch (st : Storage) (testRunId : Nat) (testCases : List SubmittedCase) :
    Option (Storage × Nat) :=
  match getTestRun st testRunId with
  | none => none
  | some _ =>
    let st1 := processCaseLoop st testRunId testCases
    let allTestCases := getTestCasesByRunId st1 testRunId
    let totalTests := allTestCases.length
    let passedTests := (allTestCases.filter (fun tc => tc.status == "passed")).length
    let failedTests := (allTestCases.filter (fun tc => tc.status == "failed")).length
    let skippedTests := (allTestCases.filter (fun tc => tc.status == "skipped")).length
    let st2 := (updateTestRun st1 testRunId
      { status := some (if testCases.length < 100 then "completed" else "running")
        totalTests := some totalTests, passedTests := some passedTests
        failedTests := some failedTests, skippedTests := some skippedTests }).2
    some (st2, totalTests)

/-- The four stored counters of a run (when the run exists). -/
def runCounters (st : Storage) (id : Nat) : Option (Nat × Nat × Nat × Nat) :=
  (getTestRun st id).map (fun r => (r.totalTests, r.passedTests, r.failedTests, r.skippedTests))

/-- The stored status of a run (when the run exists). -/
def runStatus (st : Storage) (id : Nat) : Option String :=
  (getTestRun st id).map (fun r => r.status)

/-- All stored failure-analysis rows, in insertion order. -/
def allFailureAnalyses (st : Storage) : List FailureAnalysisRec :=
  st.failureAnalyses.map (fun p => p.2)

/-! ## Concrete fixtures used by the theorems -/

/-- The insert shape the upload route builds for a fresh automated run. -/
def nightlyRunInsert : InsertTestRun :=
  { name := "Nightly", type := "automated", status := "running"
    xmlContent := some "<testsuites/>" }

/-- A store holding exactly one automated run, with id 1 and zero counters. -/
def storageWithRun : Storage := (createTestRun emptyStorage nightlyRunInsert).2

/-- A submitted case whose status is `"error"`. -/
def errorCase : SubmittedCase := { name := "boom", status := "error" }

/-- A submitted case whose status is `"failed"`. -/
def failedCase : SubmittedCase := { name := "broken", status := "failed" }

/-- A submitted case whose status is `"passed"`. -/
def passedCase : SubmittedCase := { name := "fine", status := "passed" }

/-- A case element that nonsensically carries both a `failure` and a `skipped`
child. -/
def bothMarkersCase : XmlNode :=
  .element "testcase" [⟨"name", "t"⟩]
    (XmlForest.ofList [.element "failure" [] .nil, .element "skipped" [] .nil])

/-- A passing case element. -/
def tcPass (nm : String) : XmlNode := .element "testcase" [⟨"name", nm⟩] .nil

/-- A failing case element (one `failure` child). -/
def tcFail : XmlNode :=
  .element "testcase" [⟨"name", "t2"⟩] (XmlForest.ofList [.element "failure" [] .nil])

/-- A suite element declaring `tests="3" failures="2"` over three case
elements of which exactly one actually failed. -/
def declaredMismatchSuite : XmlNode :=
  .element "testsuite" [⟨"name", "s"⟩, ⟨"tests", "3"⟩, ⟨"failures", "2"⟩]
    (XmlForest.ofList [tcPass "t1", tcFail, tcPass "t3"])

/-- A document wrapping `declaredMismatchSuite` in a `testsuites` element. -/
def declaredMismatchDoc : XmlForest :=
  XmlForest.ofList [.element "testsuites" [] (XmlForest.ofList [declaredMismatchSuite])]

/-- The recomputed count of parsed cases of a given status in a parsed document. -/
def recomputedStatusCount (p : ParsedJUnitXML) (s : CaseStatus) : Nat :=
  ((p.testSuites.flatMap (fun su => su.testCases)).filter
    (fun c => decide (c.status = s))).length

/-- The sum over the selected suite elements of one declared count attribute,
read exactly as `parseTestSuite` reads it. -/
def declaredCountSum (doc : XmlForest) (attr : String) : JSNum :=
  (selectSuiteElements doc).foldl
    (fun a e => jsAdd a (parseIntJS (jsOr (getAttribute e attr) "0"))) (some 0)

/-- A suite element with no attributes at all. -/
def bareSuite : XmlNode := .element "testsuite" [] .nil

/-- A suite element whose `tests` attribute is not numeric. -/
def suiteAbc : XmlNode := .element "testsuite" [⟨"tests", "abc"⟩] .nil

/-- Parsed totals of 3 tests with 1 failure (pass rate 2/3). -/
def mismatchTotals : ParsedJUnitXML :=
  { testSuites := [], totalTests := some 3, totalFailures := some 1
    totalErrors := some 0, totalSkipped := some 0, totalTime := some 0 }

/-- The pass-rate the specification states: `passed / total x 100` rounded to
one decimal place (written with the kernel-computable rational operations). -/
def passRateOneDecimal (passed total : ℚ) : ℚ :=
  qDiv ((qRound (qMul (qDiv passed total) 1000) : ℤ) : ℚ) 10

/-- A stored run used by the update-frame witness. -/
def wRun1 : TestRunRec :=
  { id := 1, name := "A", type := "automated", status := "running"
    totalTests := 5, passedTests := 4, failedTests := 1, skippedTests := 0
    duration := none, xmlContent := some "<testsuites/>", createdAt := 0 }

/-- A second stored run used by the update-frame witness. -/
def wRun2 : TestRunRec :=
  { id := 2, name := "B", type := "manual", status := "pending"
    totalTests := 0, passedTests := 0, failedTests := 0, skippedTests := 0
    duration := some 10, xmlContent := none, createdAt := 1 }

/-- A store holding the two witness runs. -/
def wStore : Storage :=
  { testRuns := [(1, wRun1), (2, wRun2)], testCases := [], failureAnalyses := []
    currentTestRunId := 3, currentTestCaseId := 1, currentFailureAnalysisId := 1
    clock := 2 }

/-- A partial update touching only status and totalTests. -/
def wUpdates : TestRunUpdates := { status := some "completed", totalTests := some 7 }

/-! ## Bridge lemmas for the rational operations -/

theorem qAdd_eq (a b : ℚ) : qAdd a b = a + b := by
  rw [qAdd, Rat.mkRat_eq_divInt, Rat.divInt_eq_div]
  have ha : (a.den : ℚ) ≠ 0 := by positivity
  have hb : (b.den : ℚ) ≠ 0 := by positivity
  conv_rhs => rw [← Rat.num_div_den a, ← Rat.num_div_den b]
  push_cast
  field_simp

theorem qSub_eq (a b : ℚ) : qSub a b = a - b := by
  rw [qSub, Rat.mkRat_eq_divInt, Rat.divInt_eq_div]
  have ha : (a.den : ℚ) ≠ 0 := by positivity
  have hb : (b.den : ℚ) ≠ 0 := by positivity
  conv_rhs => rw [← Rat.num_div_den a, ← Rat.num_div_den b]
  push_cast
  field_simp
  ring

theorem qMul_eq (a b : ℚ) : qMul a b = a * b := by
  rw [qMul, Rat.mkRat_eq_divInt, Rat.divInt_eq_div]
  have ha : (a.den : ℚ) ≠ 0 := by positivity
  have hb : (b.den : ℚ) ≠ 0 := by positivity
  conv_rhs => rw [← Rat.num_div_den a, ← Rat.num_div_den b]
  push_cast
  field_simp

theorem qDiv_eq (a b : ℚ) (hb : b ≠ 0) : qDiv a b = a / b := by
  rw [qDiv, Rat.divInt_eq_div]
  have ha : (a.den : ℚ) ≠ 0 := by positivity
  have hbd : (b.den : ℚ) ≠ 0 := by positivity
  have hbn : (b.num : ℚ) ≠ 0 := by
    simpa [Rat.num_eq_zero] using hb
  conv_rhs => rw [← Rat.num_div_den a, ← Rat.num_div_den b]
  push_cast
  field_simp

theorem qRound_eq (a : ℚ) : qRound a = round a := by
  have h12 : mkRat 1 2 = (1 : ℚ) / 2 := by
    rw [Rat.mkRat_eq_divInt, Rat.divInt_eq_div]; norm_num
  rw [qRound, qAdd_eq, h12, round_eq, Rat.floor_def', Rat.floor_def]

theorem qLtB_iff (a b : ℚ) : qLtB a b = true ↔ a < b := Iff.rfl

/-! ## Helper lemmas -/

theorem parseIntJS_zero : parseIntJS "0" = some 0 := by decide

theorem parseFloatJS_zero : parseFloatJS "0" = some 0 := by decide

theorem assocGet_cons {α : Type} (k1 : Nat) (v1 : α) (t : List (Nat × α)) (k : Nat) :
    assocGet ((k1, v1) :: t) k = if k1 = k then some v1 else assocGet t k := by
  by_cases h : k1 = k
  · simp [assocGet, List.find?_cons_of_pos, h]
  · simp [assocGet, List.find?_cons_of_neg, h]

theorem assocGet_set_self {α : Type} (l : List (Nat × α)) (k : Nat) (v : α) :
    assocGet (assocSet l k v) k = some v := by
  induction l with
  | nil => simp [assocSet, assocGet_cons]
  | cons p t ih =>
    obtain ⟨k1, v1⟩ := p
    by_cases hk : k1 = k
    · simp [assocSet, hk, assocGet_cons]
    · simp only [assocSet, beq_iff_eq, hk, if_false]
      rw [assocGet_cons, if_neg hk]
      exact ih

theorem assocGet_set_ne {α : Type} (l : List (Nat × α)) (k j : Nat) (v : α) (h : j ≠ k) :
    assocGet (assocSet l k v) j = assocGet l j := by
  induction l with
  | nil => simp [assocSet, assocGet_cons, Ne.symm h, assocGet]
  | cons p t ih =>
    obtain ⟨k1, v1⟩ := p
    by_cases hk : k1 = k
    · subst hk
      rw [assocSet, if_pos (by simp)]
      rw [assocGet_cons, assocGet_cons, if_neg (Ne.symm h), if_neg (Ne.symm h)]
    · simp only [assocSet, beq_iff_eq, hk, if_false]
      rw [assocGet_cons, assocGet_cons]
      by_cases hj : k1 = j
      · simp [hj]
      · rw [if_neg hj, if_neg hj]
        exact ih

/-! ## Claim theorems -/

/-- C1.  The claim states that after every batch-processing call the stored
counters satisfy `totalTests = passedTests + failedTests + skippedTests`, in
particular when a persisted case has status `"error"`.  The route recounts
`passed`/`failed`/`skipped` with three filters that all miss `"error"`, while
`totalTests` counts every persisted case: processing a batch holding one
`"error"` case leaves the run with `totalTests = 1` but
`passedTests + failedTests + skippedTests = 0`, violating the invariant. -/
theorem processJUnitBatch_error_status_breaks_sum_invariant :
    (processJUnitBatch storageWithRun 1 [errorCase]).map (fun p => runCounters p.1 1) =
      some (some (1, 0, 0, 0)) ∧
    (1 : Nat) ≠ 0 + 0 + 0 := by decide

/-- C2.  The claim states that resubmitting an identical batch leaves the
counters as after one submission and keeps one `FailureAnalysis` row per
distinct failed case.  `createTestCase` unconditionally inserts a fresh row and
`createFailureAnalysis` has no create-if-absent guard, so the single failed
case submitted twice yields counters `(2, 0, 2, 0)` instead of `(1, 0, 1, 0)`
and two analysis rows instead of one. -/
theorem processJUnitBatch_duplicate_batch_not_idempotent :
    (processJUnitBatch storageWithRun 1 [failedCase]).map
        (fun p => (runCounters p.1 1, (allFailureAnalyses p.1).length)) =
      some (some (1, 0, 1, 0), 1) ∧
    ((processJUnitBatch storageWithRun 1 [failedCase]).bind
        (fun p => processJUnitBatch p.1 1 [failedCase])).map
        (fun p => (runCounters p.1 1, (allFailureAnalyses p.1).length)) =
      some (some (2, 0, 2, 0), 2) := by
  refine ⟨by decide, by decide⟩

/-- C3.  The claim states that a run is marked `completed` only on an explicit
final-batch signal and never from batch size.  The route takes no such signal:
it marks the run `completed` exactly when the submitted batch has fewer than
100 cases — a 1-case batch (more batches still coming) flips the run to
`completed`, and a 100-case batch leaves it `running` even when it was final. -/
theorem processJUnitBatch_completion_inferred_from_batch_size :
    (processJUnitBatch storageWithRun 1 [passedCase]).map (fun p => runStatus p.1 1) =
      some (some "completed") ∧
    (processJUnitBatch storageWithRun 1 (List.replicate 100 passedCase)).map
        (fun p => runStatus p.1 1) =
      some (some "running") := by decide

/-- C4.  The claim states that failed, error and flaky cases each get exactly
one `FailureAnalysis` row with status `"new"`.  The route's guard tests only
`"failed"` and `"flaky"`, so an `"error"` case creates no row at all, and the
rows it does create carry status `"new_failures"` — a value outside the
`'new' | 'investigating' | 'resolved' | 'ignored'` set documented on the
schema's status column, whose default is `'new'`. -/
theorem processJUnitBatch_failure_analysis_creation :
    (processJUnitBatch storageWithRun 1 [errorCase]).map
        (fun p => (allFailureAnalyses p.1).length) = some 0 ∧
    (processJUnitBatch storageWithRun 1 [failedCase]).map
        (fun p => (allFailureAnalyses p.1).map (fun fa => (fa.testCaseId, fa.status))) =
      some [(some 1, "new_failures")] ∧
    "new_failures" ≠ "new" := by decide

/-- C5 counterexample.  The claim predicts that a case element containing both
a `failure` and a `skipped` child is classified `failed`; the parser classifies
it `skipped`, because the later `skipped` check overwrites the status set by
the earlier `failure` check. -/
theorem parseTestCase_failure_and_skipped_classified_skipped :
    (parseTestCase bothMarkersCase).status = CaseStatus.skipped ∧
    (parseTestCase bothMarkersCase).status ≠ CaseStatus.failed := by decide

/-- C5 amended.  The normalizer assigns exactly one status, but by
last-match-wins precedence: a `skipped` descendant wins over an `error`
descendant, which wins over a `failure` descendant; a case with none of the
three is `passed`.  (The three outcome checks in `parseTestCase` are sequential
`if` statements without `else`, so the last matching check decides.) -/
theorem parseTestCase_status_last_match_wins (e : XmlNode) :
    (parseTestCase e).status =
      (if (querySelectorTag e "skipped").isSome then CaseStatus.skipped
       else if (querySelectorTag e "error").isSome then CaseStatus.error
       else if (querySelectorTag e "failure").isSome then CaseStatus.failed
       else CaseStatus.passed) := by
  unfold parseTestCase
  cases hs : querySelectorTag e "skipped" <;>
    cases he : querySelectorTag e "error" <;>
      cases hf : querySelectorTag e "failure" <;>
        simp [hs, he, hf]

/-- C6 counterexample.  The claim predicts that the aggregates are recomputed
from the parsed case statuses: a suite declaring `tests="3" failures="2"` over
three cases of which one failed would contribute 1 failure.  The parser instead
reports `totalFailures = 2` — the declared attribute — although only one of its
parsed cases has failed status. -/
theorem parseJUnitXML_totals_trust_declared_attributes_cex :
    (parseJUnitXMLDoc declaredMismatchDoc).totalFailures = some 2 ∧
    recomputedStatusCount (parseJUnitXMLDoc declaredMismatchDoc) CaseStatus.failed = 1 ∧
    (parseJUnitXMLDoc declaredMismatchDoc).totalTests = some 3 ∧
    (some (2 : ℚ) : JSNum) ≠ some (1 : ℚ) := by decide

/-- C6 amended.  For every parsed document, the per-suite counts and the
document-level totals are taken from the suite elements' declared
`tests`/`failures`/`errors`/`skipped` attributes (summed across the selected
suite elements); the statuses of the parsed case elements do not enter the
aggregates. -/
theorem parseJUnitXML_totals_from_declared_attributes (doc : XmlForest) :
    (parseJUnitXMLDoc doc).totalTests = declaredCountSum doc "tests" ∧
    (parseJUnitXMLDoc doc).totalFailures = declaredCountSum doc "failures" ∧
    (parseJUnitXMLDoc doc).totalErrors = declaredCountSum doc "errors" ∧
    (parseJUnitXMLDoc doc).totalSkipped = declaredCountSum doc "skipped" := by
  refine ⟨?_, ?_, ?_, ?_⟩ <;>
    simp only [parseJUnitXMLDoc, declaredCountSum, List.foldl_map] <;> rfl

/-- C7 counterexample.  The claim predicts that a non-numeric declared count
parses to 0; `parseInt("abc")` is `NaN`, so a suite with `tests="abc"` gets a
`NaN` tests count, not 0. -/
theorem parseTestSuite_non_numeric_attribute_yields_nan :
    (parseTestSuite suiteAbc).tests = none ∧
    (parseTestSuite suiteAbc).tests ≠ some 0 := by decide

/-- C7 amended.  Reading the declared suite attributes is total and never
throws, and an absent attribute defaults to 0 (0.0 for `time`); but a present
non-numeric value yields `NaN` (JavaScript `parseInt`/`parseFloat`), not 0.
(An empty attribute value is falsy, so `|| '0'` still turns it into 0.) -/
theorem parseTestSuite_absent_attributes_default_zero (e : XmlNode) :
    (getAttribute e "tests" = none → (parseTestSuite e).tests = some 0) ∧
    (getAttribute e "failures" = none → (parseTestSuite e).failures = some 0) ∧
    (getAttribute e "errors" = none → (parseTestSuite e).errors = some 0) ∧
    (getAttribute e "skipped" = none → (parseTestSuite e).skipped = some 0) ∧
    (getAttribute e "time" = none → (parseTestSuite e).time = some 0) ∧
    (∀ v, getAttribute e "tests" = some v → v ≠ "" → parseIntJS v = none →
      (parseTestSuite e).tests = none) ∧
    (∀ v, getAttribute e "time" = some v → v ≠ "" → parseFloatJS v = none →
      (parseTestSuite e).time = none) := by
  refine ⟨?_, ?_, ?_, ?_, ?_, ?_, ?_⟩
  · intro h; simp [parseTestSuite, jsOr, h, parseIntJS_zero]
  · intro h; simp [parseTestSuite, jsOr, h, parseIntJS_zero]
  · intro h; simp [parseTestSuite, jsOr, h, parseIntJS_zero]
  · intro h; simp [parseTestSuite, jsOr, h, parseIntJS_zero]
  · intro h; simp [parseTestSuite, jsOr, h, parseFloatJS_zero]
  · intro v hv hne hnan
    simp only [parseTestSuite, jsOr, hv]
    rw [if_neg hne]
    exact hnan
  · intro v hv hne hnan
    simp only [parseTestSuite, jsOr, hv]
    rw [if_neg hne]
    exact hnan

/-- C7 witness: the amended theorem applied to a suite element with no
attributes and to the `tests="abc"` suite. -/
theorem parseTestSuite_absent_attributes_default_zero_witness :
    (parseTestSuite bareSuite).tests = some 0 ∧
    (parseTestSuite bareSuite).time = some 0 ∧
    (parseTestSuite suiteAbc).tests = none :=
  ⟨(parseTestSuite_absent_attributes_default_zero bareSuite).1 rfl,
   (parseTestSuite_absent_attributes_default_zero bareSuite).2.2.2.2.1 rfl,
   (parseTestSuite_absent_attributes_default_zero suiteAbc).2.2.2.2.2.1 "abc" rfl
     (by decide) (by decide)⟩

/-- C8 counterexample.  The claim predicts a pass rate rounded to one decimal
place: for 2 passed of 3 that is 66.7.  `getTestSummary` computes
`Math.round(passRate * 100) / 100`, i.e. two decimal places: 66.67. -/
theorem getTestSummary_pass_rate_not_one_decimal :
    (getTestSummary mismatchTotals).passRate = some (mkRat 6667 100) ∧
    passRateOneDecimal 2 3 = mkRat 667 10 ∧
    (getTestSummary mismatchTotals).passRate ≠ some (passRateOneDecimal 2 3) := by decide

/-- C8 amended.  For finite totals the summary pass rate equals
`passed / total x 100` rounded to two decimal places, where
`passed = total - failures - errors - skipped`; when the total is 0 the pass
rate is exactly 0 — no division by zero and no `NaN` is produced. -/
theorem getTestSummary_pass_rate_two_decimals (p : ParsedJUnitXML) (t f er sk : ℚ)
    (ht : p.totalTests = some t) (hf : p.totalFailures = some f)
    (he : p.totalErrors = some er) (hs : p.totalSkipped = some sk) :
    (getTestSummary p).passRate =
      some (((round ((if 0 < t then (t - f - er - sk) / t * 100 else 0) * 100) : ℤ) : ℚ) / 100) ∧
    (t = 0 → (getTestSummary p).passRate = some 0) := by
  have h100 : (100 : ℚ) ≠ 0 := by norm_num
  constructor
  · unfold getTestSummary
    rw [ht, hf, he, hs]
    simp only [jsSub, jsGtB, jsMul, jsDiv, jsRound]
    by_cases h0 : 0 < t
    · have hbt : qLtB 0 t = true := (qLtB_iff 0 t).2 h0
      have ht0 : t ≠ 0 := ne_of_gt h0
      rw [if_pos hbt, if_pos h0]
      simp only [jsMul, jsDiv, jsRound]
      rw [qSub_eq, qSub_eq, qSub_eq, qDiv_eq _ _ ht0, qMul_eq, qMul_eq, qRound_eq,
        qDiv_eq _ _ h100]
    · have hbt : qLtB 0 t = false := by
        rw [← Bool.not_eq_true]
        intro hb
        exact h0 ((qLtB_iff 0 t).1 hb)
      rw [if_neg (by simp [hbt]), if_neg h0]
      simp only [jsMul, jsDiv, jsRound]
      rw [qMul_eq, qRound_eq, qDiv_eq _ _ h100]
  · intro ht0
    unfold getTestSummary
    rw [ht, hf, he, hs, ht0]
    have hbt : qLtB 0 0 = false := by decide
    simp only [jsSub, jsGtB, jsMul, jsDiv, jsRound]
    rw [if_neg (by simp [hbt])]
    simp only [jsMul, jsDiv, jsRound]
    rw [qMul_eq, qRound_eq, qDiv_eq _ _ h100]
    norm_num

/-- C8 witness: the amended theorem applied to totals of 3 tests with 1
failure, and to a zero-total document. -/
theorem getTestSummary_pass_rate_two_decimals_witness :
    (getTestSummary mismatchTotals).passRate =
      some (((round ((if (0 : ℚ) < 3 then ((3 : ℚ) - 1 - 0 - 0) / 3 * 100 else 0) * 100) : ℤ) : ℚ) / 100) ∧
    (getTestSummary { mismatchTotals with totalTests := some 0 }).passRate = some 0 :=
  ⟨(getTestSummary_pass_rate_two_decimals mismatchTotals 3 1 0 0 rfl rfl rfl rfl).1,
   (getTestSummary_pass_rate_two_decimals { mismatchTotals with totalTests := some 0 }
      0 1 0 0 rfl rfl rfl rfl).2 rfl⟩

/-- C9.  For every input string the (spec-modelled) structural parse rejects
as malformed, `parseJUnitXML` fails with the malformed-document error instead
of returning parsed suites, and the upload mutation throws before issuing any
server call — in particular no run-creating POST is made, so no TestRun is
created from that input. -/
theorem parseReport_malformed_document_no_run_created (s runName : String)
    (h : parseXmlDocument s = none) :
    parseJUnitXMLStr s = Except.error ParseFailure.malformedDocument ∧
    uploadMutationFn s runName = Except.error "Invalid JUnit XML format" ∧
    createRunPosts (uploadMutationFn s runName) = 0 := by
  have hv : validateJUnitXML s = false := by simp [validateJUnitXML, h]
  refine ⟨?_, ?_, ?_⟩
  · simp [parseJUnitXMLStr, h]
  · simp [uploadMutationFn, hv]
  · simp [uploadMutationFn, hv, createRunPosts]

/-- C9 witness: the truncated document of the claim is rejected and creates
no run. -/
theorem parseReport_malformed_document_no_run_created_witness :
    parseJUnitXMLStr "<testsuites><testsuite" = Except.error ParseFailure.malformedDocument ∧
    createRunPosts (uploadMutationFn "<testsuites><testsuite" "Run") = 0 := by
  have h := parseReport_malformed_document_no_run_created "<testsuites><testsuite" "Run" (by rfl)
  exact ⟨h.1, h.2.2⟩

/-- C10.  `updateTestRun` changes only the fields present in the updates
object: the spread merge keeps every absent field (id, xmlContent, createdAt
included) at its stored value, every other run and the other tables are
untouched, and an unknown id returns `undefined` leaving the store entirely
unchanged. -/
theorem updateTestRun_updates_only_given_fields (st : Storage) (id : Nat) (u : TestRunUpdates) :
    (getTestRun st id = none → updateTestRun st id u = (none, st)) ∧
    (∀ r, getTestRun st id = some r →
      (updateTestRun st id u).1 = some (applyRunUpdates r u) ∧
      getTestRun (updateTestRun st id u).2 id = some (applyRunUpdates r u) ∧
      (∀ j, j ≠ id → getTestRun (updateTestRun st id u).2 j = getTestRun st j) ∧
      (updateTestRun st id u).2.testCases = st.testCases ∧
      (updateTestRun st id u).2.failureAnalyses = st.failureAnalyses ∧
      (u.id = none → (applyRunUpdates r u).id = r.id) ∧
      (u.name = none → (applyRunUpdates r u).name = r.name) ∧
      (u.type = none → (applyRunUpdates r u).type = r.type) ∧
      (u.status = none → (applyRunUpdates r u).status = r.status) ∧
      (u.totalTests = none → (applyRunUpdates r u).totalTests = r.totalTests) ∧
      (u.passedTests = none → (applyRunUpdates r u).passedTests = r.passedTests) ∧
      (u.failedTests = none → (applyRunUpdates r u).failedTests = r.failedTests) ∧
      (u.skippedTests = none → (applyRunUpdates r u).skippedTests = r.skippedTests) ∧
      (u.duration = none → (applyRunUpdates r u).duration = r.duration) ∧
      (u.xmlContent = none → (applyRunUpdates r u).xmlContent = r.xmlContent) ∧
      (u.createdAt = none → (applyRunUpdates r u).createdAt = r.createdAt)) := by
  constructor
  · intro h
    simp only [updateTestRun, getTestRun] at h ⊢
    rw [h]
  · intro r hr
    simp only [getTestRun] at hr
    have hu : updateTestRun st id u =
        (some (applyRunUpdates r u),
          { st with testRuns := assocSet st.testRuns id (applyRunUpdates r u) }) := by
      simp only [updateTestRun, hr]
    refine ⟨by rw [hu], ?_, ?_, by rw [hu], by rw [hu],
      ?_, ?_, ?_, ?_, ?_, ?_, ?_, ?_, ?_, ?_, ?_⟩
    · rw [hu]
      exact assocGet_set_self st.testRuns id (applyRunUpdates r u)
    · intro j hj
      rw [hu]
      exact assocGet_set_ne st.testRuns id j (applyRunUpdates r u) hj
    all_goals intro h0
    all_goals simp [applyRunUpdates, h0]

/-- C10 witness: updating run 1's status and totalTests in a two-run store
leaves run 2, the xmlContent of run 1 and — for a missing id — the whole store
unchanged. -/
theorem updateTestRun_updates_only_given_fields_witness :
    getTestRun (updateTestRun wStore 1 wUpdates).2 2 = getTestRun wStore 2 ∧
    (applyRunUpdates wRun1 wUpdates).xmlContent = wRun1.xmlContent ∧
    updateTestRun wStore 99 wUpdates = (none, wStore) := by
  obtain ⟨h1, h2, h3, h4, h5, h6, h7, h8, h9, h10, h11, h12, h13, h14, h15, h16⟩ :=
    (updateTestRun_updates_only_given_fields wStore 1 wUpdates).2 wRun1 rfl
  exact ⟨h3 2 (by decide), h15 rfl, (updateTestRun_updates_only_given_fields wStore 99 wUpdates).1 rfl⟩
